import Mathlib

/-!
Shallow embedding of the SLA core of `src/streamlit_app.py`
(fleet-maintenance SLA calculator):

* `calcular_sla_simples` (lines 1059–1073): business-day counting,
  holiday subtraction with clamping, threshold comparison, pro-rated
  discount.
* `calcular_cenario_comparativo` (lines 1001–1022): the same evaluation
  plus parts totals and a final total, with `round(·, 2)` applied to the
  monetary outputs.
* `calcular_economia` (lines 314–338): savings across a scenario set.
* the best-scenario selection on the comparison page (line 2181,
  pandas `idxmin`).

Dates are modelled as integer day numbers (days since 1970-01-01, the
`np.datetime64` epoch); monetary amounts as rationals (`ℚ`), which carry
the arithmetic of the source exactly (`/ 30`, `max`, sums, `round(·, 2)`).
-/

namespace VamosFrotas

/-- Weekday of integer day number `d` (days since 1970-01-01, a Thursday):
`0` is Monday, …, `6` is Sunday. `Int.emod` is non-negative here, so this
is total over all of `ℤ`. -/
def weekday (d : Int) : Int := (d + 3) % 7

/-- Monday–Friday, numpy's default `weekmask` for `np.busday_count`. -/
def isBusday (d : Int) : Bool := weekday d < 5

/-- Number of business days among the `len` consecutive days starting at
`start`. -/
def countBusdays (start : Int) : Nat → Nat
  | 0 => 0
  | n + 1 => (if isBusday start then 1 else 0) + countBusdays (start + 1) n

/-- `np.busday_count b e`: business days in the half-open range `[b, e)`;
negative (minus the count of `[e, b)`) when `e < b`. -/
def busday_count (b e : Int) : Int :=
  if b ≤ e then (countBusdays b (e - b).toNat : Int)
  else -(countBusdays e (b - e).toNat : Int)

/-- Result tuple of `calcular_sla_simples`
(`return dias, status, desconto, dias_excedente`). -/
structure SlaResult where
  dias : Int
  status : String
  desconto : ℚ
  dias_excedente : Int
  deriving Repr, DecidableEq

/-- `calcular_sla_simples(data_entrada, data_saida, prazo_sla,
valor_mensalidade, feriados)`, lines 1059–1073 of the source:

    dias = np.busday_count(entrada, saida + 1 day)
    dias -= int(feriados or 0)
    dias = max(dias, 0)
    if dias <= prazo_sla:
        status = "Dentro do prazo"; desconto = 0; dias_excedente = 0
    else:
        status = "Fora do prazo"
        dias_excedente = dias - prazo_sla
        desconto = (valor_mensalidade / 30) * dias_excedente

Note: the returned `desconto` is not rounded anywhere in the function. -/
def calcular_sla_simples (data_entrada data_saida : Int) (prazo_sla : Int)
    (valor_mensalidade : ℚ) (feriados : Int) : SlaResult :=
  let dias0 := busday_count data_entrada (data_saida + 1)
  let dias1 := dias0 - feriados
  let dias := max dias1 0
  if dias ≤ prazo_sla then
    { dias := dias, status := "Dentro do prazo", desconto := 0, dias_excedente := 0 }
  else
    let dias_excedente := dias - prazo_sla
    { dias := dias, status := "Fora do prazo",
      desconto := (valor_mensalidade / 30) * (dias_excedente : ℚ),
      dias_excedente := dias_excedente }

/-- The service-type → threshold dictionary, with `.get(servico, 0)`
semantics.  The identical literal appears twice in the source: `sla_dict`
in `calcular_cenario_comparativo` (lines 1005–1007) and `sla_map` on the
simple-calculation page (line 2041). -/
def sla_dict_get (servico : String) : Int :=
  if servico = "Preventiva – 2 dias úteis" then 2
  else if servico = "Corretiva – 3 dias úteis" then 3
  else if servico = "Preventiva + Corretiva – 5 dias úteis" then 5
  else if servico = "Motor – 15 dias úteis" then 15
  else 0

/-- The whole number of cents chosen by Python `round(x, 2)`: the floor or
its successor, and — exactly at a half cent — the even one (Python rounds
ties to even). -/
def pyRoundCents (q : ℚ) : ℤ :=
  if q * 100 - Int.floor (q * 100) < 1/2 then Int.floor (q * 100)
  else if 1/2 < q * 100 - Int.floor (q * 100) then Int.floor (q * 100) + 1
  else if Int.floor (q * 100) % 2 = 0 then Int.floor (q * 100)
  else Int.floor (q * 100) + 1

/-- Python `round(x, 2)` on an exact value: round to a whole number of
cents, ties to the even cent. -/
def pyRound2 (q : ℚ) : ℚ := (pyRoundCents q : ℚ) / 100

/-- The local variables computed by `calcular_cenario_comparativo`
(lines 1002–1011) before the output dictionary is built. -/
structure CenarioLocals where
  dias : Int
  dias_uteis : Int
  sla_dias : Int
  excedente : Int
  desconto : ℚ
  total_pecas : ℚ
  total_final : ℚ
  deriving Repr, DecidableEq

/-- Lines 1002–1011 of `calcular_cenario_comparativo`:

    dias = np.busday_count(entrada, saida + 1 day)
    dias_uteis = max(dias - int(feriados or 0), 0)
    sla_dias = sla_dict.get(servico, 0)
    excedente = max(0, dias_uteis - sla_dias)
    desconto = (mensalidade / 30) * excedente if excedente > 0 else 0
    total_pecas = sum(p["valor"] for p in pecas)
    total_final = (mensalidade - desconto) + total_pecas

`pecas` is modelled as the list of its `"valor"` entries. -/
def cenarioLocals (entrada saida feriados : Int) (servico : String)
    (pecas : List ℚ) (mensalidade : ℚ) : CenarioLocals :=
  let dias := busday_count entrada (saida + 1)
  let dias_uteis := max (dias - feriados) 0
  let sla_dias := sla_dict_get servico
  let excedente := max 0 (dias_uteis - sla_dias)
  let desconto := if excedente > 0 then (mensalidade / 30) * (excedente : ℚ) else 0
  let total_pecas := pecas.sum
  let total_final := (mensalidade - desconto) + total_pecas
  { dias := dias, dias_uteis := dias_uteis, sla_dias := sla_dias,
    excedente := excedente, desconto := desconto,
    total_pecas := total_pecas, total_final := total_final }

/-- The numeric content of the dictionary returned by
`calcular_cenario_comparativo` (lines 1012–1022).  The monetary fields are
the values passed to `formatar_moeda`: `round(desconto, 2)`,
`round(total_pecas, 2)` and `round(total_final, 2)`; `mensalidade` is
handed to `formatar_moeda` unrounded.  Client/plate/date strings are
display-only pass-throughs and are omitted. -/
structure CenarioRow where
  dias_uteis : Int
  sla_dias : Int
  excedente : Int
  mensalidade : ℚ
  desconto : ℚ
  pecas : ℚ
  total_final : ℚ
  deriving Repr, DecidableEq

/-- `calcular_cenario_comparativo` (lines 1001–1022), reduced to its
numeric outputs. -/
def calcular_cenario_comparativo (entrada saida feriados : Int)
    (servico : String) (pecas : List ℚ) (mensalidade : ℚ) : CenarioRow :=
  let l := cenarioLocals entrada saida feriados servico pecas mensalidade
  { dias_uteis := l.dias_uteis, sla_dias := l.sla_dias,
    excedente := l.excedente, mensalidade := mensalidade,
    desconto := pyRound2 l.desconto, pecas := pyRound2 l.total_pecas,
    total_final := pyRound2 l.total_final }

/-- `min(valores)` for a Python list: the fold of binary `min` over the
elements, starting from the first.  The `[]` case is unreachable in the
source (guarded by `len(valores) > 1`). -/
def listMin : List ℚ → ℚ
  | [] => 0
  | x :: xs => xs.foldl min x

/-- `max(valores)`, analogously. -/
def listMax : List ℚ → ℚ
  | [] => 0
  | x :: xs => xs.foldl max x

/-- The numeric core of `calcular_economia` (lines 314–338), over the list
`valores` of parsed `Total Final (R$)` values:

    if len(valores) > 1:
        menor = min(valores); maior = max(valores)
        economia = maior - menor
        if economia > 0:
            return <formatted economia>
    return ""

`some e` models the formatted-savings return, `none` the `""` return
(rows that are not scenario comparisons, or whose values fail to parse,
reach the model with the corresponding values missing from `valores`). -/
def calcular_economia (valores : List ℚ) : Option ℚ :=
  if valores.length > 1 then
    let menor := listMin valores
    let maior := listMax valores
    let economia := maior - menor
    if economia > 0 then some economia else none
  else none

/-- pandas `Series.idxmin` over the list of final totals (line 2181:
`df_cenarios["Total Final (R$)"].apply(moeda_para_float).idxmin()`):
the first position attaining the minimum; `none` on the empty list
(unreachable in the source, which requires at least two scenarios). -/
def idxmin : List ℚ → Option Nat
  | [] => none
  | x :: xs =>
    match idxmin xs with
    | none => some 0
    | some j => if x ≤ listMin xs then some 0 else some (j + 1)

/-! ### Helper lemmas -/

/-- Unfolding equation for `calcular_sla_simples`. -/
lemma sla_simples_eq (e s p : Int) (m : ℚ) (f : Int) :
    calcular_sla_simples e s p m f =
      if max (busday_count e (s + 1) - f) 0 ≤ p then
        { dias := max (busday_count e (s + 1) - f) 0, status := "Dentro do prazo",
          desconto := 0, dias_excedente := 0 }
      else
        { dias := max (busday_count e (s + 1) - f) 0, status := "Fora do prazo",
          desconto := (m / 30) * ((max (busday_count e (s + 1) - f) 0 - p : Int) : ℚ),
          dias_excedente := max (busday_count e (s + 1) - f) 0 - p } := rfl

/-- A range that ends at or before its beginning has a non-positive
business-day count. -/
lemma busday_count_nonpos (b e : Int) (h : e ≤ b) : busday_count b e ≤ 0 := by
  unfold busday_count
  split_ifs with hbe
  · have : b = e := le_antisymm hbe h
    subst this
    simp [countBusdays]
  · simp

/-! ### Claims about the SLA evaluator -/

/-- C1: in both evaluators, `excessDays = max(0, businessDays - thresholdDays)`
and `discount = (monthlyFee / 30) * excessDays` when `excessDays > 0`, else
`0`, with the daily rate always `monthlyFee / 30` (fixed 30-day month). -/
theorem c1_excess_and_discount :
    (∀ (e s p : Int) (m : ℚ) (f : Int),
      (calcular_sla_simples e s p m f).dias_excedente
          = max 0 ((calcular_sla_simples e s p m f).dias - p) ∧
      (calcular_sla_simples e s p m f).desconto
          = (if 0 < (calcular_sla_simples e s p m f).dias_excedente
             then (m / 30) * (((calcular_sla_simples e s p m f).dias_excedente : Int) : ℚ)
             else 0)) ∧
    (∀ (e s fer : Int) (srv : String) (pc : List ℚ) (m : ℚ),
      (cenarioLocals e s fer srv pc m).excedente
          = max 0 ((cenarioLocals e s fer srv pc m).dias_uteis
              - (cenarioLocals e s fer srv pc m).sla_dias) ∧
      (cenarioLocals e s fer srv pc m).desconto
          = (if 0 < (cenarioLocals e s fer srv pc m).excedente
             then (m / 30) * (((cenarioLocals e s fer srv pc m).excedente : Int) : ℚ)
             else 0)) := by
  constructor
  · intro e s p m f
    by_cases h : max (busday_count e (s + 1) - f) 0 ≤ p
    · rw [sla_simples_eq, if_pos h]
      dsimp only
      refine ⟨by omega, ?_⟩
      rw [if_neg (by omega)]
    · rw [sla_simples_eq, if_neg h]
      dsimp only
      refine ⟨by omega, ?_⟩
      rw [if_pos (by omega)]
  · intro e s fer srv pc m
    exact ⟨rfl, rfl⟩

/-- C5: the status label is `"Dentro do prazo"` (within SLA) iff the clamped
business-day count is at most the threshold, and `"Fora do prazo"` (out of
SLA) iff it exceeds it: the two statuses partition all inputs. -/
theorem c5_status_partition (e s p : Int) (m : ℚ) (f : Int) :
    ((calcular_sla_simples e s p m f).status = "Dentro do prazo" ↔
      (calcular_sla_simples e s p m f).dias ≤ p) ∧
    ((calcular_sla_simples e s p m f).status = "Fora do prazo" ↔
      p < (calcular_sla_simples e s p m f).dias) := by
  by_cases h : max (busday_count e (s + 1) - f) 0 ≤ p
  · rw [sla_simples_eq, if_pos h]
    dsimp only
    constructor
    · exact ⟨fun _ => h, fun _ => rfl⟩
    · constructor
      · intro hs
        exact absurd hs (by decide)
      · intro hlt
        exact absurd h (not_le.mpr hlt)
  · rw [sla_simples_eq, if_neg h]
    dsimp only
    constructor
    · constructor
      · intro hs
        exact absurd hs (by decide)
      · intro hle
        exact absurd hle h
    · exact ⟨fun _ => not_le.mp h, fun _ => rfl⟩

/-- C7: the service-type threshold mapping is fixed — Preventiva ↦ 2,
Corretiva ↦ 3, Preventiva + Corretiva ↦ 5, Motor ↦ 15 — and every other
key resolves to a threshold of 0 (not an error: the lookup is total). -/
theorem c7_threshold_map :
    sla_dict_get "Preventiva – 2 dias úteis" = 2 ∧
    sla_dict_get "Corretiva – 3 dias úteis" = 3 ∧
    sla_dict_get "Preventiva + Corretiva – 5 dias úteis" = 5 ∧
    sla_dict_get "Motor – 15 dias úteis" = 15 ∧
    ∀ s : String, s ≠ "Preventiva – 2 dias úteis" → s ≠ "Corretiva – 3 dias úteis" →
      s ≠ "Preventiva + Corretiva – 5 dias úteis" → s ≠ "Motor – 15 dias úteis" →
      sla_dict_get s = 0 := by
  refine ⟨rfl, ?_, ?_, ?_, ?_⟩
  · rw [sla_dict_get, if_neg (by decide), if_pos rfl]
  · rw [sla_dict_get, if_neg (by decide), if_neg (by decide), if_pos rfl]
  · rw [sla_dict_get, if_neg (by decide), if_neg (by decide), if_neg (by decide),
      if_pos rfl]
  · intro s h1 h2 h3 h4
    rw [sla_dict_get, if_neg h1, if_neg h2, if_neg h3, if_neg h4]

/-- C7 witness: an unrecognized key resolves to threshold 0. -/
theorem c7_threshold_map_witness : sla_dict_get "Funilaria" = 0 :=
  c7_threshold_map.2.2.2.2 "Funilaria" (by decide) (by decide) (by decide) (by decide)

/-- C8: for every pair of dates and every holiday count, the clamped
business-day count is never negative, and whenever the holiday count is at
least the raw business-day count the clamped count is exactly 0 — in both
evaluators. -/
theorem c8_clamp_nonneg :
    (∀ (e s p : Int) (m : ℚ) (fer : Int),
      0 ≤ (calcular_sla_simples e s p m fer).dias ∧
      (busday_count e (s + 1) ≤ fer → (calcular_sla_simples e s p m fer).dias = 0)) ∧
    (∀ (e s fer : Int) (srv : String) (pc : List ℚ) (m : ℚ),
      0 ≤ (cenarioLocals e s fer srv pc m).dias_uteis ∧
      (busday_count e (s + 1) ≤ fer →
        (cenarioLocals e s fer srv pc m).dias_uteis = 0)) := by
  constructor
  · intro e s p m fer
    by_cases h : max (busday_count e (s + 1) - fer) 0 ≤ p
    · rw [sla_simples_eq, if_pos h]
      dsimp only
      exact ⟨by omega, fun hf => by omega⟩
    · rw [sla_simples_eq, if_neg h]
      dsimp only
      exact ⟨by omega, fun hf => by omega⟩
  · intro e s fer srv pc m
    show 0 ≤ max (busday_count e (s + 1) - fer) 0 ∧ _
    exact ⟨by omega, fun hf => by
      show max (busday_count e (s + 1) - fer) 0 = 0
      omega⟩

/-- C8 witness: one business day (Wednesday 2024-01-03) with one holiday
clamps to exactly 0 elapsed business days. -/
theorem c8_clamp_nonneg_witness :
    0 ≤ (calcular_sla_simples 19725 19725 2 100 1).dias ∧
    (calcular_sla_simples 19725 19725 2 100 1).dias = 0 := by
  obtain ⟨h0, h1⟩ := c8_clamp_nonneg.1 19725 19725 2 100 1
  exact ⟨h0, h1 (by decide)⟩

/-- C9: the simple evaluator is total and deterministic: for every numeric
input it returns a result whose fields are defined by the clamping rules
(status one of the two labels, non-negative day counts, the discount given
by the pro-rating formula), and equal inputs yield equal results. -/
theorem c9_total_deterministic (e s p : Int) (m : ℚ) (fer : Int) :
    ((calcular_sla_simples e s p m fer).status = "Dentro do prazo" ∨
      (calcular_sla_simples e s p m fer).status = "Fora do prazo") ∧
    0 ≤ (calcular_sla_simples e s p m fer).dias ∧
    0 ≤ (calcular_sla_simples e s p m fer).dias_excedente ∧
    (calcular_sla_simples e s p m fer).dias = max (busday_count e (s + 1) - fer) 0 ∧
    (calcular_sla_simples e s p m fer).desconto
      = (if 0 < (calcular_sla_simples e s p m fer).dias_excedente
         then (m / 30) * (((calcular_sla_simples e s p m fer).dias_excedente : Int) : ℚ)
         else 0) ∧
    (∀ (e2 s2 p2 : Int) (m2 : ℚ) (fer2 : Int),
      e = e2 → s = s2 → p = p2 → m = m2 → fer = fer2 →
      calcular_sla_simples e s p m fer = calcular_sla_simples e2 s2 p2 m2 fer2) := by
  refine ⟨?_, ?_, ?_, ?_, ?_, ?_⟩
  · by_cases h : max (busday_count e (s + 1) - fer) 0 ≤ p
    · left
      rw [sla_simples_eq, if_pos h]
    · right
      rw [sla_simples_eq, if_neg h]
  · by_cases h : max (busday_count e (s + 1) - fer) 0 ≤ p
    · rw [sla_simples_eq, if_pos h]
      dsimp only
      omega
    · rw [sla_simples_eq, if_neg h]
      dsimp only
      omega
  · by_cases h : max (busday_count e (s + 1) - fer) 0 ≤ p
    · rw [sla_simples_eq, if_pos h]
    · rw [sla_simples_eq, if_neg h]
      dsimp only
      omega
  · by_cases h : max (busday_count e (s + 1) - fer) 0 ≤ p
    · rw [sla_simples_eq, if_pos h]
    · rw [sla_simples_eq, if_neg h]
  · by_cases h : max (busday_count e (s + 1) - fer) 0 ≤ p
    · rw [sla_simples_eq, if_pos h]
      dsimp only
      rw [if_neg (by omega)]
    · rw [sla_simples_eq, if_neg h]
      dsimp only
      rw [if_pos (by omega)]
  · intro e2 s2 p2 m2 fer2 he hs hp hm hf
    rw [he, hs, hp, hm, hf]

/-- C9 witness: evaluation at a concrete input, determinism discharged. -/
theorem c9_total_deterministic_witness :
    calcular_sla_simples 19723 19732 3 3000 0 = calcular_sla_simples 19723 19732 3 3000 0 :=
  (c9_total_deterministic 19723 19732 3 3000 0).2.2.2.2.2
    19723 19732 3 3000 0 rfl rfl rfl rfl rfl

/-- C10: when the exit date is strictly before the entry date (the
precondition the evaluator does not check), the raw count is non-positive
and the clamp yields a defined degenerate result: 0 business days, status
"Dentro do prazo", 0 excess days and 0 discount — given a non-negative
holiday count and threshold. -/
theorem c10_inverted_range (e s p : Int) (m : ℚ) (fer : Int)
    (hinv : s < e) (hfer : 0 ≤ fer) (hp : 0 ≤ p) :
    (calcular_sla_simples e s p m fer).dias = 0 ∧
    (calcular_sla_simples e s p m fer).status = "Dentro do prazo" ∧
    (calcular_sla_simples e s p m fer).dias_excedente = 0 ∧
    (calcular_sla_simples e s p m fer).desconto = 0 := by
  have h0 : busday_count e (s + 1) ≤ 0 := busday_count_nonpos e (s + 1) (by omega)
  have h : max (busday_count e (s + 1) - fer) 0 ≤ p := by omega
  rw [sla_simples_eq, if_pos h]
  exact ⟨by dsimp only; omega, rfl, rfl, rfl⟩

/-- C10 witness: exit 2024-01-02 before entry 2024-01-11 yields the
degenerate within-SLA result. -/
theorem c10_inverted_range_witness :
    (calcular_sla_simples 19733 19724 3 3000 0).dias = 0 ∧
    (calcular_sla_simples 19733 19724 3 3000 0).status = "Dentro do prazo" ∧
    (calcular_sla_simples 19733 19724 3 3000 0).dias_excedente = 0 ∧
    (calcular_sla_simples 19733 19724 3 3000 0).desconto = 0 :=
  c10_inverted_range 19733 19724 3 3000 0 (by decide) (by decide) (by decide)

/-! ### List minima and maxima, as Python's `min`/`max` compute them -/

lemma foldl_min_le (l : List ℚ) : ∀ a : ℚ, l.foldl min a ≤ a := by
  induction l with
  | nil => intro a; exact le_refl a
  | cons x xs ih =>
    intro a
    exact le_trans (ih (min a x)) (min_le_left a x)

lemma foldl_min_le_mem (l : List ℚ) : ∀ (a x : ℚ), x ∈ l → l.foldl min a ≤ x := by
  induction l with
  | nil => intro a x hx; exact absurd hx (List.not_mem_nil x)
  | cons y ys ih =>
    intro a x hx
    rcases List.mem_cons.mp hx with h | h
    · subst h
      exact le_trans (foldl_min_le ys (min a x)) (min_le_right a x)
    · exact ih (min a y) x h

lemma foldl_min_mem (l : List ℚ) : ∀ a : ℚ, l.foldl min a = a ∨ l.foldl min a ∈ l := by
  induction l with
  | nil => intro a; exact Or.inl rfl
  | cons y ys ih =>
    intro a
    rcases ih (min a y) with h | h
    · rcases min_choice a y with hc | hc
      · exact Or.inl (by rw [List.foldl_cons, h, hc])
      · exact Or.inr (by rw [List.foldl_cons, h, hc]; exact List.mem_cons_self y ys)
    · exact Or.inr (List.mem_cons_of_mem y h)

lemma foldl_min_comm (l : List ℚ) : ∀ a b : ℚ, l.foldl min (min a b) = min a (l.foldl min b) := by
  induction l with
  | nil => intro a b; rfl
  | cons z zs ih =>
    intro a b
    show zs.foldl min (min (min a b) z) = min a ((z :: zs).foldl min b)
    rw [min_assoc, ih]
    rfl

lemma listMin_le (l : List ℚ) (x : ℚ) (hx : x ∈ l) : listMin l ≤ x := by
  cases l with
  | nil => exact absurd hx (List.not_mem_nil x)
  | cons y ys =>
    rcases List.mem_cons.mp hx with h | h
    · subst h
      exact foldl_min_le ys x
    · exact foldl_min_le_mem ys y x h

lemma listMin_mem (l : List ℚ) (h : l ≠ []) : listMin l ∈ l := by
  cases l with
  | nil => exact absurd rfl h
  | cons y ys =>
    rcases foldl_min_mem ys y with h | h
    · rw [listMin, h]
      exact List.mem_cons_self y ys
    · exact List.mem_cons_of_mem y h

lemma listMin_cons (x : ℚ) (l : List ℚ) (h : l ≠ []) :
    listMin (x :: l) = min x (listMin l) := by
  cases l with
  | nil => exact absurd rfl h
  | cons y ys =>
    show ys.foldl min (min x y) = min x (ys.foldl min y)
    exact foldl_min_comm ys x y

lemma foldl_max_ge (l : List ℚ) : ∀ a : ℚ, a ≤ l.foldl max a := by
  induction l with
  | nil => intro a; exact le_refl a
  | cons x xs ih =>
    intro a
    exact le_trans (le_max_left a x) (ih (max a x))

lemma foldl_max_ge_mem (l : List ℚ) : ∀ (a x : ℚ), x ∈ l → x ≤ l.foldl max a := by
  induction l with
  | nil => intro a x hx; exact absurd hx (List.not_mem_nil x)
  | cons y ys ih =>
    intro a x hx
    rcases List.mem_cons.mp hx with h | h
    · subst h
      exact le_trans (le_max_right a x) (foldl_max_ge ys (max a x))
    · exact ih (max a y) x h

lemma foldl_max_mem (l : List ℚ) : ∀ a : ℚ, l.foldl max a = a ∨ l.foldl max a ∈ l := by
  induction l with
  | nil => intro a; exact Or.inl rfl
  | cons y ys ih =>
    intro a
    rcases ih (max a y) with h | h
    · rcases max_choice a y with hc | hc
      · exact Or.inl (by rw [List.foldl_cons, h, hc])
      · exact Or.inr (by rw [List.foldl_cons, h, hc]; exact List.mem_cons_self y ys)
    · exact Or.inr (List.mem_cons_of_mem y h)

lemma listMax_ge (l : List ℚ) (x : ℚ) (hx : x ∈ l) : x ≤ listMax l := by
  cases l with
  | nil => exact absurd hx (List.not_mem_nil x)
  | cons y ys =>
    rcases List.mem_cons.mp hx with h | h
    · subst h
      exact foldl_max_ge ys x
    · exact foldl_max_ge_mem ys y x h

lemma listMax_mem (l : List ℚ) (h : l ≠ []) : listMax l ∈ l := by
  cases l with
  | nil => exact absurd rfl h
  | cons y ys =>
    rcases foldl_max_mem ys y with h | h
    · rw [listMax, h]
      exact List.mem_cons_self y ys
    · exact List.mem_cons_of_mem y h

lemma listMin_perm (l l2 : List ℚ) (hp : l.Perm l2) : listMin l = listMin l2 := by
  cases l with
  | nil =>
    have : l2 = [] := hp.nil_eq.symm
    rw [this]
  | cons y ys =>
    have h1 : (y :: ys) ≠ [] := List.cons_ne_nil y ys
    have h2 : l2 ≠ [] := by
      intro hl2
      subst hl2
      exact absurd hp.eq_nil h1
    apply le_antisymm
    · exact listMin_le _ _ (hp.mem_iff.mpr (listMin_mem l2 h2))
    · exact listMin_le _ _ (hp.symm.mem_iff.mpr (listMin_mem _ h1))

lemma listMax_perm (l l2 : List ℚ) (hp : l.Perm l2) : listMax l = listMax l2 := by
  cases l with
  | nil =>
    have : l2 = [] := hp.nil_eq.symm
    rw [this]
  | cons y ys =>
    have h1 : (y :: ys) ≠ [] := List.cons_ne_nil y ys
    have h2 : l2 ≠ [] := by
      intro hl2
      subst hl2
      exact absurd hp.eq_nil h1
    apply le_antisymm
    · exact listMax_ge _ _ (hp.symm.mem_iff.mpr (listMax_mem _ h1))
    · exact listMax_ge _ _ (hp.mem_iff.mpr (listMax_mem l2 h2))

lemma idxmin_cons (x : ℚ) (xs : List ℚ) (j : Nat) (h : idxmin xs = some j) :
    idxmin (x :: xs) = if x ≤ listMin xs then some 0 else some (j + 1) := by
  unfold idxmin
  rw [h]

lemma idxmin_spec : ∀ l : List ℚ, l ≠ [] →
    ∃ i, idxmin l = some i ∧ i < l.length ∧ l.getD i 0 = listMin l ∧
      ∀ j : Nat, j < i → listMin l < l.getD j 0 := by
  intro l
  induction l with
  | nil => intro hne; exact absurd rfl hne
  | cons x xs ih =>
    intro _
    by_cases hxs : xs = []
    · subst hxs
      exact ⟨0, rfl, Nat.zero_lt_one, rfl, fun j hj => absurd hj (Nat.not_lt_zero j)⟩
    · obtain ⟨j, hj_eq, hj_lt, hj_get, hj_min⟩ := ih hxs
      by_cases hle : x ≤ listMin xs
      · refine ⟨0, ?_, Nat.succ_pos _, ?_, fun j hj => absurd hj (Nat.not_lt_zero j)⟩
        · rw [idxmin_cons x xs j hj_eq, if_pos hle]
        · show x = listMin (x :: xs)
          rw [listMin_cons x xs hxs, min_eq_left hle]
      · push_neg at hle
        have hmin : listMin (x :: xs) = listMin xs := by
          rw [listMin_cons x xs hxs, min_eq_right (le_of_lt hle)]
        refine ⟨j + 1, ?_, Nat.succ_lt_succ hj_lt, ?_, ?_⟩
        · rw [idxmin_cons x xs j hj_eq, if_neg (not_le.mpr hle)]
        · show xs.getD j 0 = listMin (x :: xs)
          rw [hmin, hj_get]
        · intro k hk
          cases k with
          | zero =>
            show listMin (x :: xs) < x
            rw [hmin]
            exact hle
          | succ k =>
            show listMin (x :: xs) < xs.getD k 0
            rw [hmin]
            exact hj_min k (Nat.lt_of_succ_lt_succ hk)

/-! ### Claims about the scenario ranker -/

/-- C2: the savings value is reported (as `some`) exactly when the scenario
sequence has at least 2 elements and `max(finalTotal) - min(finalTotal)` is
strictly positive, and then it equals that difference; in every other case
it is absent (`none`), never present with value zero. -/
theorem c2_savings_iff (valores : List ℚ) (s : ℚ) :
    calcular_economia valores = some s ↔
      2 ≤ valores.length ∧ s = listMax valores - listMin valores ∧ 0 < s := by
  unfold calcular_economia
  by_cases h1 : valores.length > 1
  · rw [if_pos h1]
    show (if listMax valores - listMin valores > 0
        then some (listMax valores - listMin valores) else none) = some s ↔ _
    by_cases h2 : listMax valores - listMin valores > 0
    · rw [if_pos h2]
      constructor
      · intro h
        have hs := Option.some.inj h
        exact ⟨by omega, hs.symm, hs ▸ h2⟩
      · rintro ⟨-, rfl, -⟩
        rfl
    · rw [if_neg h2]
      constructor
      · intro h
        exact absurd h.symm (Option.some_ne_none s)
      · rintro ⟨-, rfl, hpos⟩
        exact absurd hpos h2
  · rw [if_neg h1]
    constructor
    · intro h
      exact absurd h.symm (Option.some_ne_none s)
    · rintro ⟨hlen, -, -⟩
      omega

/-- C3: on every non-empty scenario sequence the selected best index exists,
its final total is the minimum of the sequence, and every earlier position
has a strictly larger final total (first occurrence wins ties). -/
theorem c3_best_stable_min (l : List ℚ) (hne : l ≠ []) :
    ∃ i, idxmin l = some i ∧ i < l.length ∧ l.getD i 0 = listMin l ∧
      ∀ j : Nat, j < i → listMin l < l.getD j 0 :=
  idxmin_spec l hne

/-- C3 witness: on the spec's scenario totals 1000, 850, 1200 the best is
the (unique, hence first) index of 850. -/
theorem c3_best_stable_min_witness :
    ∃ i, idxmin [(1000 : ℚ), 850, 1200] = some i ∧
      i < ([(1000 : ℚ), 850, 1200] : List ℚ).length ∧
      ([(1000 : ℚ), 850, 1200] : List ℚ).getD i 0 = listMin [(1000 : ℚ), 850, 1200] ∧
      ∀ j : Nat, j < i →
        listMin [(1000 : ℚ), 850, 1200] < ([(1000 : ℚ), 850, 1200] : List ℚ).getD j 0 :=
  c3_best_stable_min [1000, 850, 1200] (by decide)

/-- C4: the ranking is invariant under permutation of the scenario sequence:
the minimum final total (the best scenario's total) and the savings value
are unchanged. -/
theorem c4_perm_invariant (l l2 : List ℚ) (hp : l.Perm l2) :
    listMin l = listMin l2 ∧ calcular_economia l = calcular_economia l2 := by
  refine ⟨listMin_perm l l2 hp, ?_⟩
  unfold calcular_economia
  rw [hp.length_eq, listMin_perm l l2 hp, listMax_perm l l2 hp]

/-- C4 witness: a concrete permutation of the spec's three scenario totals. -/
theorem c4_perm_invariant_witness :
    listMin [(850 : ℚ), 1200, 1000] = listMin [(1000 : ℚ), 850, 1200] ∧
    calcular_economia [(850 : ℚ), 1200, 1000] = calcular_economia [(1000 : ℚ), 850, 1200] :=
  c4_perm_invariant [850, 1200, 1000] [1000, 850, 1200] (by decide)

/-! ### Rounding of monetary outputs -/

lemma pyRoundCents_close (q : ℚ) : |(pyRoundCents q : ℚ) - q * 100| ≤ 1 / 2 := by
  have hf0 : ((Int.floor (q * 100) : ℤ) : ℚ) ≤ q * 100 := Int.floor_le (q * 100)
  have hf1 : q * 100 < (Int.floor (q * 100) : ℚ) + 1 := Int.lt_floor_add_one (q * 100)
  unfold pyRoundCents
  split_ifs with h1 h2 h3
  · rw [abs_le]
    constructor <;> linarith
  · push_neg at h1
    rw [abs_le]
    push_cast
    constructor <;> linarith
  · push_neg at h1 h2
    rw [abs_le]
    constructor <;> linarith
  · push_neg at h1 h2
    rw [abs_le]
    push_cast
    constructor <;> linarith

lemma pyRound2_cents (q : ℚ) : ∃ n : ℤ, pyRound2 q = (n : ℚ) / 100 :=
  ⟨pyRoundCents q, rfl⟩

lemma pyRound2_close (q : ℚ) : |pyRound2 q - q| ≤ 1 / 200 := by
  have h := pyRoundCents_close q
  rw [abs_le] at h ⊢
  unfold pyRound2
  constructor <;> linarith

/-- C6 counterexample: the simple evaluator hands its discount to the
surrounding application unrounded.  Entry = exit = Wednesday 2024-01-03,
threshold 0, monthly fee 100, no holidays: one business day of excess gives
`desconto = 100/30 = 10/3`, which is not a whole number of cents, so no
rounding to two decimal places happened. -/
theorem c6_counterexample :
    ¬ ∃ n : ℤ, (calcular_sla_simples 19725 19725 0 100 0).desconto = (n : ℚ) / 100 := by
  have hb : busday_count 19725 (19725 + 1) = 1 := by decide
  have hm : max (busday_count 19725 (19725 + 1) - 0) 0 = 1 := by
    rw [hb]
    omega
  have hd : (calcular_sla_simples 19725 19725 0 100 0).desconto = 10 / 3 := by
    rw [sla_simples_eq, hm, if_neg (by norm_num : ¬(1 : ℤ) ≤ 0)]
    dsimp only
    norm_num
  rintro ⟨n, hn⟩
  rw [hd] at hn
  have h : (10 : ℚ) / 3 * 300 = (n : ℚ) / 100 * 300 := by rw [hn]
  have h2 : (1000 : ℚ) = (n : ℚ) * 3 := by
    ring_nf at h
    linarith
  have h3 : (1000 : ℤ) = n * 3 := by exact_mod_cast h2
  omega

/-- C6 amended: only the comparative evaluator honors the currency rounding
contract — its monetary outputs (discount, parts total, final total) are
whole numbers of cents, each within half a cent of the exact value — while
the simple evaluator returns the discount unrounded, exactly
`(monthlyFee / 30) * excessDays`. -/
theorem c6_amended_rounding :
    (∀ (e s fer : Int) (srv : String) (pc : List ℚ) (m : ℚ),
      (∃ a : ℤ, (calcular_cenario_comparativo e s fer srv pc m).desconto = (a : ℚ) / 100) ∧
      (∃ b : ℤ, (calcular_cenario_comparativo e s fer srv pc m).pecas = (b : ℚ) / 100) ∧
      (∃ c : ℤ, (calcular_cenario_comparativo e s fer srv pc m).total_final = (c : ℚ) / 100) ∧
      |(calcular_cenario_comparativo e s fer srv pc m).desconto
        - (cenarioLocals e s fer srv pc m).desconto| ≤ 1 / 200 ∧
      |(calcular_cenario_comparativo e s fer srv pc m).total_final
        - (cenarioLocals e s fer srv pc m).total_final| ≤ 1 / 200) ∧
    (∀ (e s p : Int) (m : ℚ) (fer : Int),
      (calcular_sla_simples e s p m fer).desconto
        = (if (calcular_sla_simples e s p m fer).dias ≤ p then 0
           else (m / 30) * (((calcular_sla_simples e s p m fer).dias - p : Int) : ℚ))) := by
  constructor
  · intro e s fer srv pc m
    exact ⟨pyRound2_cents _, pyRound2_cents _, pyRound2_cents _,
      pyRound2_close _, pyRound2_close _⟩
  · intro e s p m fer
    by_cases h : max (busday_count e (s + 1) - fer) 0 ≤ p
    · rw [sla_simples_eq, if_pos h]
      dsimp only
      rw [if_pos h]
    · rw [sla_simples_eq, if_neg h]
      dsimp only
      rw [if_neg h]

end VamosFrotas
